import Mathlib

/-!
Verification of the basketry/typescript-validators generator.

This file gives a shallow embedding of the generator's core logic
(src/utils.ts, src/validator-factory.ts, the SanitizerFactory, and the
runtime semantics of the code those factories emit) and settles the
frozen claims C1..C10 against it.

Modelling conventions:
* JavaScript runtime values are the inductive `Js`.  `typeof` is
  `jsTypeof`; property access on a non-object (which JavaScript answers
  with `undefined` for primitives) is modelled as `Js.undef`.
* The emitted validator clauses are modelled as functions from a runtime
  value to the list of `VError` records they push, following the exact
  guard conditions built by the factory source.  Error titles are
  abstracted to fixed strings (the claims only concern codes, counts and
  paths).
* Unbounded recursion in the TypeScript source (the `traverse` generator
  of src/utils.ts, the recursive generated sanitizers) is modelled with
  an explicit fuel parameter; `none` (resp. an unchanged value at fuel 0)
  marks a computation that has not finished within the given depth.
  `∀ fuel, … = none` therefore witnesses true divergence.
-/

namespace TsValidators

/-- A JavaScript runtime value (JSON-like fragment used by the generated
validators and sanitizers). -/
inductive Js where
  | undef
  | null
  | bool (b : Bool)
  | num (n : Int)
  | str (s : String)
  | arr (elems : List Js)
  | obj (fields : List (String × Js))

/-- JavaScript `typeof`.  Arrays and `null` answer "object". -/
def jsTypeof : Js → String
  | Js.undef => "undefined"
  | Js.null => "object"
  | Js.bool _ => "boolean"
  | Js.num _ => "number"
  | Js.str _ => "string"
  | Js.arr _ => "object"
  | Js.obj _ => "object"

/-- Test for the `undefined` value. -/
def isUndef : Js → Bool
  | Js.undef => true
  | _ => false

/-- String payload of a value (only inspected under a
`typeof v === 'string'` guard, mirroring the generated code). -/
def asString : Js → String
  | Js.str s => s
  | _ => ""

/-- `Array.isArray`. -/
def jsIsArray : Js → Bool
  | Js.arr _ => true
  | _ => false

/-- Property access `x[name]` on the model: lookup in an object's field
list (first binding wins, as with distinct keys in JavaScript), and
`undefined` on everything else. -/
def getField (x : Js) (name : String) : Js :=
  match x with
  | Js.obj fields =>
    match fields.find? (fun kv => kv.1 == name) with
    | some kv => kv.2
    | none => Js.undef
  | _ => Js.undef

/-- A structured validation error as emitted by the generated code:
`errors.push({code, title, path})` in src/validator-factory.ts
(`ValidatorFactory.buildError`). -/
structure VError where
  code : String
  title : String
  path : String
deriving DecidableEq, Repr

/-! ## C2: the generated enum validator (ValidatorFactory.buildEnumValidator)

src/src/validator-factory.ts lines 225-251 emit

  export function validateE(value) {
    const errors: ValidationError[] = [];
    if (typeof value === 'string' && ![v1, ...].includes(value)) {
      errors.push({code: 'STRING_ENUM', ...});
    }
    return [];
  }

Note the final statement returns the literal `[]`, not `errors`.
-/

/-- Guard condition of the emitted enum clause:
`typeof value === 'string' && !values.includes(value)`. -/
def enumCondition (vals : List String) (value : Js) : Bool :=
  (jsTypeof value == "string") && !(vals.contains (asString value))

/-- Runtime behaviour of the emitted enum validator body: an `errors`
array is allocated and conditionally pushed to, and then the function
returns the empty array literal (the last `yield 'return [];'` of
`buildEnumValidator`). -/
def runEnumValidator (vals : List String) (value : Js) : List VError :=
  let errors : List VError := []
  let pushed :=
    if enumCondition vals value then
      errors ++ [⟨"STRING_ENUM", "Value must be one of the enum values", ""⟩]
    else errors
  let _ := pushed
  []

/-! ## C5: the generated type guard (ValidatorFactory.buildTypeGuard)

src/src/validator-factory.ts lines 214-223 emit

  export function isT(obj) {
    return typeof obj !== 'undefined' && !validateT(obj).length
  }
-/

/-- Runtime behaviour of the emitted type guard, parameterised by the
type's emitted validator.  `!n` on a JavaScript array length is truthy
negation, i.e. `n == 0`. -/
def typeGuard (validate : Js → List VError) (v : Js) : Bool :=
  (jsTypeof v != "undefined") && ((validate v).length == 0)

/-! ## C10: the array-unique-items guard clause
(ValidatorFactory.buildArrayUniqueItemsClause)

src/src/validator-factory.ts lines 709-724 emit the condition

  Array.isArray(params.x) && params.x.length === new Set(x).length

where the argument of `new Set(...)` is the interpolated BARE member
name, not `params.x`.  The only identifiers bound in the body of a
generated validator function are its parameter `params` and the local
`errors` array, so for any other member name the bare identifier is
unbound: when the first conjunct is true (the value is an array),
evaluating `new Set(<name>)` throws a ReferenceError before any
comparison takes place.  (A constructed Set would in any case expose
`size` rather than `length`, so a completed read yields `undefined`;
that point is only reached if the bare name happens to resolve.)

The model below evaluates the condition left-to-right with
short-circuiting, in an explicit scope of identifier bindings, and
propagates thrown errors.  The member name is taken to be a plain
camel-case identifier, so the raw-name access on the left of `===` and
the camel-name access in `Array.isArray` denote the same value.
-/

/-- A runtime evaluation error thrown by generated code. -/
inductive EvalErr where
  | referenceError (name : String)
  | typeError (name : String)
deriving DecidableEq, Repr

/-- The `length` property of a value (a number for arrays and strings,
`undefined` otherwise — in particular for a Set, which has `size` but
no `length`). -/
def jsLengthProp : Js → Js
  | Js.arr xs => Js.num xs.length
  | Js.str s => Js.num s.length
  | _ => Js.undef

/-- JavaScript strict equality `===` on the primitive fragment the
clause compares (a number against `undefined`). -/
def jsStrictEq : Js → Js → Bool
  | Js.undef, Js.undef => true
  | Js.null, Js.null => true
  | Js.bool a, Js.bool b => a == b
  | Js.num a, Js.num b => a == b
  | Js.str a, Js.str b => a == b
  | _, _ => false

/-- Iterability for `new Set(arg)`: arrays and strings are iterable,
every other value of the model is not (its construction throws a
TypeError). -/
def jsIterable : Js → Bool
  | Js.arr _ => true
  | Js.str _ => true
  | _ => false

/-- Resolve a bare identifier against the bindings in scope. -/
def lookupBinding (scope : List (String × Js)) (name : String) : Option Js :=
  (scope.find? (fun b => b.1 == name)).map (fun b => b.2)

/-- The bindings visible inside the body of a generated validator: its
parameter `params` and its local `errors` array. -/
def validatorScopeOf (ps errs : Js) : List (String × Js) :=
  [("params", ps), ("errors", errs)]

/-- Left-to-right short-circuit evaluation of the emitted condition: a
non-array fails the first conjunct; on an array, `params.x.length` is
the array's length, after which `new Set(<name>)` resolves the bare
identifier — throwing a ReferenceError when it is unbound and a
TypeError when it is bound to a non-iterable — and only a resolved,
iterable binding reaches the comparison of the length against the
Set's absent `length` property. -/
def uniqueItemsCondEval (scope : List (String × Js)) (name : String) (v : Js) :
    Except EvalErr Bool :=
  if jsIsArray v then
    match lookupBinding scope name with
    | none => Except.error (EvalErr.referenceError name)
    | some w =>
      if jsIterable w then Except.ok (jsStrictEq (jsLengthProp v) Js.undef)
      else Except.error (EvalErr.typeError name)
  else
    Except.ok false

/-- Runtime behaviour of the emitted clause: push one
ARRAY_UNIQUE_ITEMS error when the condition evaluates to true,
propagating thrown evaluation errors. -/
def uniqueItemsClauseRun (scope : List (String × Js)) (name : String) (v : Js) :
    Except EvalErr (List VError) :=
  match uniqueItemsCondEval scope name v with
  | Except.error e => Except.error e
  | Except.ok true =>
    Except.ok [⟨"ARRAY_UNIQUE_ITEMS", "must contain unique values", name⟩]
  | Except.ok false => Except.ok []

/-! ## C1: the type-graph traversal of src/utils.ts

  function* traverse(service, type) {
    yield type;
    for (const prop of type.properties) {
      if (prop.isPrimitive) continue;
      const subtype = getTypeByName(service, prop.typeName.value);
      if (!subtype) continue;
      yield subtype;
      yield* traverse(service, subtype);
    }
  }

The generator keeps no visited set.  We model the recursion with fuel:
`traverseF s fuel t = none` means the traversal has not produced its
full (finite) yield sequence within recursion depth `fuel`; if that
holds for every fuel, the generator's recursion is infinite.
-/

/-- A property as consumed by `traverse` / `needsDateConversion`. -/
structure IrProperty where
  name : String
  typeName : String
  isPrimitive : Bool
deriving DecidableEq, Repr

/-- A named type of the IR. -/
structure IrType where
  name : String
  properties : List IrProperty
deriving DecidableEq, Repr

/-- The service graph restricted to what the traversal consumes. -/
structure IrService where
  types : List IrType
deriving DecidableEq, Repr

/-- `getTypeByName` of the basketry IR: resolve a type name in the
service. -/
def getTypeByName (s : IrService) (n : String) : Option IrType :=
  s.types.find? (fun t => t.name == n)

/-- `isDateProperty` of src/utils.ts. -/
def isDateProperty (p : IrProperty) : Bool :=
  p.isPrimitive && (p.typeName == "date" || p.typeName == "date-time")

mutual

/-- Fuel-indexed semantics of the `traverse` generator: the list of
types it yields, or `none` if depth `fuel` is exhausted before the
recursion completes. -/
def traverseF (s : IrService) : Nat → IrType → Option (List IrType)
  | 0, _ => none
  | fuel + 1, t =>
    match traversePropsF s fuel t.properties with
    | none => none
    | some rest => some (t :: rest)
termination_by fuel _ => (fuel, 0)

/-- The `for (const prop of type.properties)` loop body of `traverse`. -/
def traversePropsF (s : IrService) (fuel : Nat) : List IrProperty → Option (List IrType)
  | [] => some []
  | p :: ps =>
    if p.isPrimitive then traversePropsF s fuel ps
    else
      match getTypeByName s p.typeName with
      | none => traversePropsF s fuel ps
      | some sub =>
        match traverseF s fuel sub with
        | none => none
        | some inner =>
          match traversePropsF s fuel ps with
          | none => none
          | some rest => some (sub :: (inner ++ rest))
termination_by ps => (fuel, ps.length + 1)

end

/-- `needsDateConversion` of src/utils.ts: scan the traversal for a
date/date-time property.  (The JavaScript loop consumes the generator
lazily, but on a graph whose cycle contains no date property — the
situation of the C1 counterexample — no early exit is possible and the
loop finishes exactly when the generator does.) -/
def needsDateConversionF (s : IrService) (fuel : Nat) (t : IrType) : Option Bool :=
  (traverseF s fuel t).map (fun ts => ts.any (fun st => st.properties.any isDateProperty))

/-- The self-referential type of the C1 counterexample: type "a" with a
single non-primitive property of type "a" and no date properties. -/
def cycType : IrType := ⟨"a", [⟨"self", "a", false⟩]⟩

/-- A service containing only the cyclic type. -/
def cycService : IrService := ⟨[cycType]⟩

/-! ## C3: helper-usage tracking (ValidatorMethodFactory)

The second document of src/src/validator-factory.ts (lines 745-1368)
accumulates `needsXValidator` flags through `touchX` methods and then
`buildInternalHelperMethods` (lines 872-900) emits each shared helper
at most once, guarded by its flag.  The `number` helper's guard
(lines 1062-1070, `buildNumberValidator`) tests `needsStringValidator`.
-/

/-- Mutable helper-usage state of `ValidatorMethodFactory`. -/
structure HelperState where
  needsRequiredValidator : Bool := false
  needsArrayValidator : Bool := false
  needsArrayMaxItemsValidator : Bool := false
  needsArrayMinItemsValidator : Bool := false
  needsArrayUniqueItemsValidator : Bool := false
  needsPassthroughValidator : Bool := false
  needsStringValidator : Bool := false
  needsNumberValidator : Bool := false
  needsIntegerValidator : Bool := false
  needsBooleanValidator : Bool := false
  needsDateValidator : Bool := false
  needsStringMaxLengthValidator : Bool := false
  needsStringMinLengthValidator : Bool := false
  needsStringPatternValidator : Bool := false
  needsNumberMultipleOfValidator : Bool := false
  needsNumberGreaterThanValidator : Bool := false
  needsNumberGreaterOrEqualValidator : Bool := false
  needsNumberLessThanValidator : Bool := false
  needsNumberLessOrEqualValidator : Bool := false
  codes : List String := []
deriving DecidableEq, Repr

/-- `Set.add` on the error-code accumulator. -/
def addCode (codes : List String) (c : String) : List String :=
  if codes.contains c then codes else codes ++ [c]

/-- Fresh state at the start of a generation run. -/
def initHelperState : HelperState := {}

/-- `touchStringValidator` (lines 794-798). -/
def touchStringValidator (s : HelperState) : HelperState :=
  { s with needsStringValidator := true, codes := addCode s.codes "TYPE" }

/-- `touchNumberValidator` (lines 800-804). -/
def touchNumberValidator (s : HelperState) : HelperState :=
  { s with needsNumberValidator := true, codes := addCode s.codes "TYPE" }

/-- `touchBooleanValidator` (lines 812-816). -/
def touchBooleanValidator (s : HelperState) : HelperState :=
  { s with needsBooleanValidator := true, codes := addCode s.codes "TYPE" }

/-- The helper declarations yielded by `buildInternalHelperMethods`
(lines 872-900), in emission order, each guarded exactly as in the
source.  Note the guard of the `number` helper (`buildNumberValidator`,
lines 1062-1070) reads `needsStringValidator`. -/
def emittedHelpers (s : HelperState) : List String :=
  (if s.needsRequiredValidator then ["required"] else []) ++
  (if s.needsArrayValidator then ["array"] else []) ++
  (if s.needsArrayMaxItemsValidator then ["maxItems"] else []) ++
  (if s.needsArrayMinItemsValidator then ["minItems"] else []) ++
  (if s.needsArrayUniqueItemsValidator then ["uniqueItems"] else []) ++
  (if s.needsPassthroughValidator then ["using"] else []) ++
  (if s.needsStringValidator || s.needsNumberValidator || s.needsBooleanValidator
    then ["nativeType"] else []) ++
  (if s.needsStringValidator then ["string"] else []) ++
  (if s.needsStringValidator then ["number"] else []) ++
  (if s.needsIntegerValidator then ["integer"] else []) ++
  (if s.needsBooleanValidator then ["boolean"] else []) ++
  (if s.needsDateValidator then ["date"] else []) ++
  (if s.needsStringMaxLengthValidator then ["maxLength"] else []) ++
  (if s.needsStringMinLengthValidator then ["minLength"] else []) ++
  (if s.needsStringPatternValidator then ["pattern"] else []) ++
  (if s.needsNumberMultipleOfValidator then ["multipleOf"] else []) ++
  (if s.needsNumberGreaterThanValidator then ["gt"] else []) ++
  (if s.needsNumberGreaterOrEqualValidator then ["gte"] else []) ++
  (if s.needsNumberLessThanValidator then ["lt"] else []) ++
  (if s.needsNumberLessOrEqualValidator then ["lte"] else [])

/-! ## C4: member emission order

`ValidatorFactory.buildMethodParamsValidator` (lines 155-165) and
`ValidatorFactory.buildTypeValidator` (lines 191-201) iterate
`method.parameters` / `type.properties` directly, whereas
`MemberValidatorFactory.build` (lines 1383-1385) iterates
`members.sort((a, b) => a.name.value.localeCompare(b.name.value))`.
`localeCompare` is modelled as the lexicographic order on `String`.
-/

/-- A member (property or parameter) as far as ordering is concerned:
its name plus a payload distinguishing members beyond their name. -/
structure IrMember where
  name : String
  payload : Nat
deriving DecidableEq, Repr

/-- Name-comparison relation used by the `sort` callbacks of the source. -/
def memberLe (a b : IrMember) : Prop := a.name ≤ b.name

instance : DecidableRel memberLe := fun a b =>
  inferInstanceAs (Decidable (a.name ≤ b.name))

instance : IsTotal IrMember memberLe := ⟨fun a b => le_total a.name b.name⟩

instance : IsTrans IrMember memberLe := ⟨fun _ _ _ h1 h2 => le_trans h1 h2⟩

/-- Order in which `ValidatorFactory.buildTypeValidator` (and likewise
`buildMethodParamsValidator`) emits the per-member checks: the loop
`for (const property of type.properties)` visits the members in IR
declaration order. -/
def typeValidatorEmitOrder (props : List IrMember) : List String :=
  props.map IrMember.name

/-- Order in which `MemberValidatorFactory.build` emits the per-member
checks: the member list is sorted by name first. -/
def memberValidatorEmitOrder (ms : List IrMember) : List String :=
  (List.insertionSort memberLe ms).map IrMember.name

/-! ## C8: the generated sanitizers (SanitizerFactory.buildFile)

For each type the factory emits (src/unnamed/part_001, lines 54-111)

  export function sanitizeT(obj) {
    const sanitized = {
      // for each property, in name-sorted order:
      //   plain (primitive or unresolved): name: obj.name,
      //   nested required:        name: sanitizeU(obj.name),
      //   nested optional:        name: typeof obj.name === 'undefined'
      //                                   ? undefined : sanitizeU(obj.name),
      //   nested required array:  name: obj.name.map(sanitizeU),
      //   nested optional array:  name: typeof obj.name === 'undefined'
      //                                   ? undefined : obj.name.map(sanitizeU),
    };
    return stripUndefinedValues(sanitized);
  }

`.map` applied to a non-array throws in JavaScript; the model collapses
such a clause to the absent value `undefined`.  The mutual recursion
between the emitted sanitizers is modelled with fuel, fuel 0 returning
the value unchanged.
-/

/-- A property as the sanitizer emitter classifies it: `nested = some u`
when the declared type resolved to the custom type `u`
(via `getTypeByName`), `none` when the property is primitive or its
type is unresolved (the value is then copied verbatim). -/
structure SProp where
  name : String
  required : Bool
  isArray : Bool
  nested : Option String
deriving DecidableEq, Repr

/-- Resolve a type name to its declared properties (empty for a name
the service does not declare — such a sanitizer is never referenced by
the generated code). -/
def schemaProps (svc : List (String × List SProp)) (u : String) : List SProp :=
  match svc.find? (fun e => e.1 == u) with
  | some e => e.2
  | none => []

/-- Name comparison used by the emitter's `sort` callback. -/
def propLe (a b : SProp) : Prop := a.name ≤ b.name

instance : DecidableRel propLe := fun a b =>
  inferInstanceAs (Decidable (a.name ≤ b.name))

/-- The `sort` helper of the SanitizerFactory: order properties by
name. -/
def sortProps (ps : List SProp) : List SProp := List.insertionSort propLe ps

/-- `xs.map(f)` on the model: map over an array, absent otherwise. -/
def jsMapElems (f : Js → Js) : Js → Js
  | Js.arr xs => Js.arr (xs.map f)
  | _ => Js.undef

/-- The field initialiser emitted for one property, as a function of
the accessed value `a = obj.name` and of the sanitizer family `san`
used for nested types. -/
def accessorValue (san : String → Js → Js) (p : SProp) (a : Js) : Js :=
  match p.nested with
  | none => a
  | some u =>
    if p.isArray then
      if p.required then jsMapElems (san u) a
      else if isUndef a then Js.undef else jsMapElems (san u) a
    else
      if p.required then san u a
      else if isUndef a then Js.undef else san u a

/-- `stripUndefinedValues` of the generated file: rebuild the object
keeping only the fields whose value is defined. -/
def stripUndefinedValues (fields : List (String × Js)) : List (String × Js) :=
  fields.filter (fun kv => !isUndef kv.2)

/-- Fuel-indexed semantics of the emitted `sanitizeT` functions: build
the object with exactly the declared properties in name-sorted order,
recursing into nested sanitizers, then strip undefined fields. -/
def sanitizeF (svc : List (String × List SProp)) : Nat → String → Js → Js
  | 0, _, x => x
  | fuel + 1, t, x =>
    Js.obj (stripUndefinedValues
      ((sortProps (schemaProps svc t)).map
        (fun p =>
          (p.name, accessorValue (fun u z => sanitizeF svc fuel u z) p (getField x p.name)))))
termination_by fuel _ _ => fuel

/-- Concrete schema for the C8 witness: type "w" has a required plain
property "name" and an optional nested property "foo" of type "wf". -/
def widgetSchema : List (String × List SProp) :=
  [("w", [⟨"foo", false, false, some "wf"⟩, ⟨"name", true, false, none⟩]),
   ("wf", [⟨"fiz", true, false, none⟩])]

/-- Concrete input for the C8 witness, carrying fields the schema does
not declare. -/
def widgetInput : Js :=
  Js.obj [("name", Js.str "n"), ("extra", Js.num 3),
          ("foo", Js.obj [("fiz", Js.str "z"), ("junk", Js.bool true)])]

/-! ## C9: the string-max-length guard clause

`ValidatorFactory.buildStringMaxLengthClause` (lines 515-533) emits,
for a non-array string member `x` carrying a string-max-length rule
with bound N, the clause

  if (typeof params.x === 'string' && params.x.length > N) {
    errors.push({code: 'STRING_MAX_LENGTH', ...});
  }

preceded (per `buildTypeValidator`) by the required clause and the
primitive-type clause for the member.
-/

/-- `ValidatorFactory.buildRequiredClause` (emitted only for required
members): push one REQUIRED error when the value is undefined. -/
def requiredClause (required : Bool) (name : String) (v : Js) : List VError :=
  if required && isUndef v then [⟨"REQUIRED", "is required", name⟩] else []

/-- `ValidatorFactory.buildPrimitiveTypeClause` for a non-array string
member: push one TYPE error when the value is present and not a
string. -/
def stringTypeClause (name : String) (v : Js) : List VError :=
  if (jsTypeof v != "undefined") && (jsTypeof v != "string") then
    [⟨"TYPE", "must be a string", name⟩]
  else []

/-- `ValidatorFactory.buildStringMaxLengthClause` for a non-array
member: push one STRING_MAX_LENGTH error when the value is a string
longer than the bound. -/
def stringMaxLengthClause (name : String) (n : Nat) (v : Js) : List VError :=
  if jsTypeof v = "string" ∧ n < (asString v).length then
    [⟨"STRING_MAX_LENGTH", "max length exceeded", name⟩]
  else []

/-- The emitted checks for one required-or-optional string member whose
only rule is string-max-length, in the clause order of
`buildTypeValidator`: required clause, primitive-type clause, rule
clause. -/
def validateStringMaxMember (required : Bool) (name : String) (n : Nat) (v : Js) :
    List VError :=
  requiredClause required name v ++ stringTypeClause name v ++
    stringMaxLengthClause name n v

/-! ## C6 / C7: the generated validated-service wrapper
(ValidatorFactory.buildValidatedServiceWrappers, lines 273-386)

For a method with parameters and a return type the emitted wrapper is

  async m(params) {
    let validationErrors: ValidationError[] = [];
    try {
      validationErrors = validateMParams(params);
      if (validationErrors.length) {
        return sanitizeR(buildR(validationErrors, undefined));
      }
      const sanitizedParams = sanitizeMParams(params);
      return sanitizeR(await this.service.m(sanitizedParams));
    } catch (err) {
      return sanitizeR(buildR(validationErrors, err));
    }
  }

The components are modelled as functions; the ones that can throw at
runtime (the real implementation, and the result sanitizer applied to
untrusted runtime data) return `Except`.  The parameter validator,
parameter sanitizer and response builder are total functions of their
(type-correct) inputs.  `wrapperRun` yields the settled value — or the
exception that escapes the wrapper — together with the number of times
the real implementation was invoked.
-/

/-- The pieces a generated wrapper method is built from. -/
structure WrapperParts (P R E : Type) where
  validate : P → List VError
  sanitizeParams : P → P
  impl : P → Except E R
  sanitizeResult : R → Except E R
  handler : List VError → Option E → R

/-- The emitted `catch (err)` clause: re-invoke the response builder
with the validation errors recorded so far and the caught error, and
sanitize its output — with no further protection, so a throw here
escapes the wrapper. -/
def catchBlock {P R E : Type} (w : WrapperParts P R E) (ve : List VError) (err : E) :
    Except E R :=
  w.sanitizeResult (w.handler ve (some err))

/-- One call of the generated wrapper method.  The second component
counts invocations of the wrapped real implementation. -/
def wrapperRun {P R E : Type} (w : WrapperParts P R E) (p : P) : Except E R × Nat :=
  let ve := w.validate p
  if ve.isEmpty then
    let sp := w.sanitizeParams p
    match w.impl sp with
    | Except.error e => (catchBlock w ve e, 1)
    | Except.ok r =>
      match w.sanitizeResult r with
      | Except.ok v => (Except.ok v, 1)
      | Except.error e => (catchBlock w ve e, 1)
  else
    match w.sanitizeResult (w.handler ve none) with
    | Except.ok v => (Except.ok v, 0)
    | Except.error e => (catchBlock w ve e, 0)

/-- Concrete wrapper instance for the C6 witness: validation always
passes, the implementation adds one, nothing throws. -/
def wrapperC6Example : WrapperParts Nat Nat Nat where
  validate := fun _ => []
  sanitizeParams := id
  impl := fun n => Except.ok (n + 1)
  sanitizeResult := fun r => Except.ok r
  handler := fun _ _ => 0

/-- Concrete wrapper instance for the C7 counterexample: validation
passes, the implementation succeeds, but the result sanitizer throws on
every input — including the response builder's output in the catch
clause. -/
def wrapperC7Example : WrapperParts Nat Nat Nat where
  validate := fun _ => []
  sanitizeParams := id
  impl := fun _ => Except.ok 0
  sanitizeResult := fun _ => Except.error 7
  handler := fun _ _ => 0

/-- Concrete wrapper instance for the C7 witness: the implementation
throws, everything else is total. -/
def wrapperC7Witness : WrapperParts Nat Nat Nat where
  validate := fun _ => []
  sanitizeParams := id
  impl := fun _ => Except.error 3
  sanitizeResult := fun r => Except.ok r
  handler := fun _ _ => 9

/-! ## Theorems -/

/-- Auxiliary: `typeof v` is "undefined" exactly on the undefined value. -/
theorem jsTypeof_eq_undefined_iff (v : Js) : jsTypeof v = "undefined" ↔ v = Js.undef := by
  cases v <;> simp [jsTypeof]

/-- Auxiliary: on the cyclic service, `traverse` never completes within
any recursion depth. -/
theorem traverseF_cycService_eq_none (fuel : Nat) :
    traverseF cycService fuel cycType = none := by
  induction fuel with
  | zero => rw [traverseF]
  | succ n ih =>
    have ih' : traverseF cycService n
        ⟨"a", [⟨"self", "a", false⟩]⟩ = none := ih
    have hget : getTypeByName cycService "a" = some cycType := rfl
    rw [traverseF]
    simp [traversePropsF, cycType, hget, ih']

/-- C1: the claim states that the `traverse` / `needsDateConversion`
reachability check terminates on every type graph, cyclic ones
included.  The source keeps no visited set, so on the self-referential
type "a" the recursion is infinite: for every recursion depth the
fuel-indexed semantics fails to complete, hence `needsDateConversion`
never returns. -/
theorem C1_needsDateConversion_diverges_on_cycle (fuel : Nat) :
    needsDateConversionF cycService fuel cycType = none := by
  unfold needsDateConversionF
  rw [traverseF_cycService_eq_none fuel]
  rfl

/-- C3: the claim states every shared helper is emitted exactly when it
was touched.  The `number` helper violates this in both directions:
touching only the number validator sets its flag yet emits no `number`
helper (a helper is missing), while touching only the string validator
emits the `number` helper without its flag ever being set (dead code).
The guard in `buildNumberValidator` reads `needsStringValidator`. -/
theorem C3_number_helper_emission_mismatch :
    (touchNumberValidator initHelperState).needsNumberValidator = true ∧
    "number" ∉ emittedHelpers (touchNumberValidator initHelperState) ∧
    (touchStringValidator initHelperState).needsNumberValidator = false ∧
    "number" ∈ emittedHelpers (touchStringValidator initHelperState) := by
  decide

/-- C2: the claim states that the generated enum validator returns
exactly one STRING_ENUM error when the value is a string outside the
enum's literal set.  The code instead always returns the empty array:
the pushed error lands in a local `errors` array that the final
`return [];` discards.  At the failing input (enum values a, b and the
string value "c") the push condition holds, yet the result is empty. -/
theorem C2_enum_validator_always_returns_empty :
    (∀ vals v, runEnumValidator vals v = []) ∧
      enumCondition ["a", "b"] (Js.str "c") = true :=
  ⟨fun _ _ => rfl, by decide⟩

/-- C5: the generated type guard returns true exactly when the value is
not undefined and the type's validator returns the empty error list. -/
theorem C5_type_guard_iff (validate : Js → List VError) (v : Js) :
    typeGuard validate v = true ↔ v ≠ Js.undef ∧ validate v = [] := by
  unfold typeGuard
  rw [Bool.and_eq_true, bne_iff_ne, Nat.beq_eq_true_eq, List.length_eq_zero]
  constructor
  · rintro ⟨h1, h2⟩
    refine ⟨fun hv => h1 ?_, h2⟩
    rw [hv]
    rfl
  · rintro ⟨h1, h2⟩
    refine ⟨fun hv => h1 ((jsTypeof_eq_undefined_iff v).mp hv), h2⟩

/-- C5 witness: a validator that accepts everything makes the guard
true on a defined value. -/
theorem C5_type_guard_iff_witness :
    typeGuard (fun _ => ([] : List VError)) (Js.num 1) = true :=
  (C5_type_guard_iff (fun _ => []) (Js.num 1)).mpr
    ⟨fun h => Js.noConfusion h, rfl⟩

/-- C10 counterexample: the claim states that the right-hand side
`new Set(x).length` is always `undefined`, so the condition is never
satisfied and the clause completes normally without pushing an error
for every runtime input.  For the member "items" — whose bare
identifier is bound neither to `params` nor to `errors`, the only
identifiers in scope — a concrete duplicate-carrying array input makes
the clause throw a ReferenceError instead: evaluation never reaches
the comparison, so the claimed mechanism is not the program's
behaviour. -/
theorem C10_unique_items_reference_error :
    uniqueItemsClauseRun
        (validatorScopeOf (Js.obj [("items", Js.arr [Js.num 1, Js.num 1])]) (Js.arr []))
        "items" (Js.arr [Js.num 1, Js.num 1]) =
      Except.error (EvalErr.referenceError "items") ∧
    uniqueItemsClauseRun
        (validatorScopeOf (Js.obj [("items", Js.arr [Js.num 1, Js.num 1])]) (Js.arr []))
        "items" (Js.arr [Js.num 1, Js.num 1]) ≠
      Except.ok [] := by
  refine ⟨rfl, fun h => ?_⟩
  rw [show uniqueItemsClauseRun
      (validatorScopeOf (Js.obj [("items", Js.arr [Js.num 1, Js.num 1])]) (Js.arr []))
      "items" (Js.arr [Js.num 1, Js.num 1]) =
      Except.error (EvalErr.referenceError "items") from rfl] at h
  exact Except.noConfusion h

/-- C10 as amended: for every member whose (camel-case) name is not one
of the generated function's own bindings, the emitted clause never
pushes an ARRAY_UNIQUE_ITEMS error — but not by the claimed mechanism.
A non-array input short-circuits the condition to false and the clause
completes normally with no error; an array input makes
`new Set(<name>)` throw a ReferenceError on the unbound bare
identifier, aborting the validator before any comparison.  Either way
duplicate items are never flagged: every normal completion of the
clause carries the empty error list. -/
theorem C10_unique_items_clause_never_flags (ps errs v : Js) (name : String)
    (h : lookupBinding (validatorScopeOf ps errs) name = none) :
    (jsIsArray v = false →
      uniqueItemsClauseRun (validatorScopeOf ps errs) name v = Except.ok []) ∧
    (jsIsArray v = true →
      uniqueItemsClauseRun (validatorScopeOf ps errs) name v =
        Except.error (EvalErr.referenceError name)) ∧
    (∀ errList,
      uniqueItemsClauseRun (validatorScopeOf ps errs) name v = Except.ok errList →
        errList = []) := by
  refine ⟨?_, ?_, ?_⟩
  · intro ha
    simp [uniqueItemsClauseRun, uniqueItemsCondEval, ha]
  · intro ha
    simp [uniqueItemsClauseRun, uniqueItemsCondEval, ha, h]
  · intro errList hE
    cases hv : jsIsArray v with
    | false =>
      have hok : uniqueItemsClauseRun (validatorScopeOf ps errs) name v =
          Except.ok [] := by
        simp [uniqueItemsClauseRun, uniqueItemsCondEval, hv]
      rw [hok] at hE
      injection hE with hE'
      exact hE'.symm
    | true =>
      have herr : uniqueItemsClauseRun (validatorScopeOf ps errs) name v =
          Except.error (EvalErr.referenceError name) := by
        simp [uniqueItemsClauseRun, uniqueItemsCondEval, hv, h]
      rw [herr] at hE
      exact Except.noConfusion hE

/-- C10 witness: for the member "items" (unbound in the validator
scope), a non-array input completes normally with no error and an
array input throws the ReferenceError. -/
theorem C10_unique_items_clause_never_flags_witness :
    uniqueItemsClauseRun (validatorScopeOf (Js.obj []) (Js.arr [])) "items"
        (Js.num 5) = Except.ok [] ∧
    uniqueItemsClauseRun (validatorScopeOf (Js.obj []) (Js.arr [])) "items"
        (Js.arr [Js.num 1, Js.num 1]) =
      Except.error (EvalErr.referenceError "items") := by
  have h1 := C10_unique_items_clause_never_flags (Js.obj []) (Js.arr [])
    (Js.num 5) "items" rfl
  have h2 := C10_unique_items_clause_never_flags (Js.obj []) (Js.arr [])
    (Js.arr [Js.num 1, Js.num 1]) "items" rfl
  exact ⟨h1.1 rfl, h2.2.1 rfl⟩

/-- C4 counterexample: the claim states every member list is sorted by
name before emission.  `ValidatorFactory.buildTypeValidator` emits the
per-member checks in declaration order: on a type declaring members
"b" then "a" the emission order is b, a — not the sorted order a, b
produced by `MemberValidatorFactory.build`. -/
theorem C4_declaration_order_counterexample :
    typeValidatorEmitOrder [⟨"b", 0⟩, ⟨"a", 1⟩] = ["b", "a"] ∧
    memberValidatorEmitOrder [⟨"b", 0⟩, ⟨"a", 1⟩] = ["a", "b"] ∧
    typeValidatorEmitOrder [⟨"b", 0⟩, ⟨"a", 1⟩] ≠
      memberValidatorEmitOrder [⟨"b", 0⟩, ⟨"a", 1⟩] := by
  have h1 : typeValidatorEmitOrder [⟨"b", 0⟩, ⟨"a", 1⟩] = ["b", "a"] := rfl
  have hba : ¬ memberLe ⟨"b", 0⟩ ⟨"a", 1⟩ := by
    show ¬ (("b" : String) ≤ "a")
    rw [String.le_iff_toList_le]; decide
  have h2 : memberValidatorEmitOrder [⟨"b", 0⟩, ⟨"a", 1⟩] = ["a", "b"] := by
    unfold memberValidatorEmitOrder
    simp [List.insertionSort, List.orderedInsert, hba]
  exact ⟨h1, h2, by rw [h1, h2]; decide⟩

/-- C4 as amended: it is `MemberValidatorFactory.build` that sorts its
member list lexicographically by name before emission, so the order of
its emitted per-member checks is invariant under permuting the members'
IR declaration order.  (`ValidatorFactory.buildTypeValidator` and
`buildMethodParamsValidator` emit in declaration order instead.) -/
theorem C4_member_order_permutation_invariant (ms₁ ms₂ : List IrMember)
    (h : ms₁.Perm ms₂) :
    memberValidatorEmitOrder ms₁ = memberValidatorEmitOrder ms₂ := by
  unfold memberValidatorEmitOrder
  apply List.eq_of_perm_of_sorted (r := (· ≤ · : String → String → Prop))
  · exact ((List.perm_insertionSort memberLe ms₁).map _).trans
      ((h.map _).trans ((List.perm_insertionSort memberLe ms₂).map _).symm)
  · exact List.Pairwise.map _ (fun _ _ hab => hab)
      (List.sorted_insertionSort memberLe ms₁)
  · exact List.Pairwise.map _ (fun _ _ hab => hab)
      (List.sorted_insertionSort memberLe ms₂)

/-- C4 witness: two concrete permutations of the same member list give
the same emission order. -/
theorem C4_member_order_witness :
    memberValidatorEmitOrder [⟨"b", 0⟩, ⟨"a", 1⟩] =
      memberValidatorEmitOrder [⟨"a", 1⟩, ⟨"b", 0⟩] :=
  C4_member_order_permutation_invariant _ _ (by decide)

/-- C6: in the generated wrapper, a non-empty validation result means
the real implementation is never invoked and the response builder's
(sanitized) output is returned instead; an empty validation result
means the real implementation is invoked exactly once and its awaited
result is passed through the return type's sanitizer before being
returned. -/
theorem C6_wrapper_validation_gate {P R E : Type} (w : WrapperParts P R E) (p : P) :
    (w.validate p ≠ [] →
      (wrapperRun w p).2 = 0 ∧
      ∀ v, w.sanitizeResult (w.handler (w.validate p) none) = Except.ok v →
        (wrapperRun w p).1 = Except.ok v) ∧
    (w.validate p = [] →
      (wrapperRun w p).2 = 1 ∧
      ∀ r v, w.impl (w.sanitizeParams p) = Except.ok r →
        w.sanitizeResult r = Except.ok v →
        (wrapperRun w p).1 = Except.ok v) := by
  constructor
  · intro hne
    have hempty : (w.validate p).isEmpty = false := by
      cases hv : w.validate p with
      | nil => exact absurd hv hne
      | cons a l => rfl
    constructor
    · simp only [wrapperRun, hempty, Bool.false_eq_true, if_false]
      cases hs : w.sanitizeResult (w.handler (w.validate p) none) <;> simp
    · intro v hv
      simp [wrapperRun, hempty, hv]
  · intro he
    have hempty : (w.validate p).isEmpty = true := by rw [he]; rfl
    constructor
    · simp only [wrapperRun, hempty, if_true]
      cases hi : w.impl (w.sanitizeParams p) with
      | error e => simp
      | ok r => cases hs : w.sanitizeResult r <;> simp [hs]
    · intro r v hr hv
      simp [wrapperRun, hempty, hr, hv]

/-- C6 witness: with passing validation and a non-throwing
implementation, the wrapped call invokes the implementation once and
returns the sanitized result. -/
theorem C6_wrapper_validation_gate_witness :
    (wrapperRun wrapperC6Example 3).2 = 1 ∧
      (wrapperRun wrapperC6Example 3).1 = Except.ok 4 := by
  have h := (C6_wrapper_validation_gate wrapperC6Example 3).2 rfl
  exact ⟨h.1, h.2 4 4 rfl rfl⟩

/-- C7 counterexample: the claim states every wrapped call settles with
a returned value and no exception from the implementation or from
result sanitization escapes the wrapper.  With a result sanitizer that
throws (here on every input), the catch clause's own unprotected
sanitization of the builder's output throws again and the exception
escapes: the call ends in an error, not a returned value. -/
theorem C7_wrapper_can_fail_to_settle :
    (wrapperRun wrapperC7Example 0).1 = Except.error 7 := rfl

/-- C7 as amended: an exception thrown by the real implementation, or
by result sanitization inside the try block after successful
validation, is caught and converted by invoking the response builder
with the caught error (the call then settles whenever sanitizing the
builder's output does not itself throw; if it does, that exception
escapes the wrapper, as the counterexample shows). -/
theorem C7_wrapper_converts_caught_errors {P R E : Type}
    (w : WrapperParts P R E) (p : P) (h : w.validate p = []) :
    (∀ e, w.impl (w.sanitizeParams p) = Except.error e →
      (wrapperRun w p).1 = w.sanitizeResult (w.handler [] (some e))) ∧
    (∀ r e, w.impl (w.sanitizeParams p) = Except.ok r →
      w.sanitizeResult r = Except.error e →
      (wrapperRun w p).1 = w.sanitizeResult (w.handler [] (some e))) := by
  have hempty : (w.validate p).isEmpty = true := by rw [h]; rfl
  constructor
  · intro e he
    simp [wrapperRun, hempty, he, catchBlock, h]
  · intro r e hr hs
    simp [wrapperRun, hempty, hr, hs, catchBlock, h]

/-- C7 witness: a throwing implementation is converted into the
response builder's (successfully sanitized) output. -/
theorem C7_wrapper_converts_witness :
    (wrapperRun wrapperC7Witness 0).1 = Except.ok 9 := by
  have h := (C7_wrapper_converts_caught_errors wrapperC7Witness 0 rfl).1 3 rfl
  exact h.trans rfl

/-- Auxiliary: `isUndef` characterises the undefined value. -/
theorem isUndef_eq_true_iff (v : Js) : isUndef v = true ↔ v = Js.undef := by
  cases v <;> simp [isUndef]

/-- Auxiliary: a generated sanitizer never turns a defined value into
`undefined` (it returns an object, or at fuel 0 the value itself). -/
theorem sanitizeF_not_undef (svc : List (String × List SProp)) (n : Nat)
    (u : String) (z : Js) (hz : isUndef z = false) :
    isUndef (sanitizeF svc n u z) = false := by
  cases n with
  | zero => rw [sanitizeF]; exact hz
  | succ m => rw [sanitizeF]; rfl

/-- Auxiliary: reading a declared field back from the stripped object
returns exactly the value the field was built with — an `undefined`
field value reads back as `undefined` — provided the built field names
are distinct. -/
theorem getField_obj_strip (name : String) (v : Js) :
    ∀ l : List (String × Js), (l.map Prod.fst).Nodup → (name, v) ∈ l →
      getField (Js.obj (stripUndefinedValues l)) name = v := by
  intro l
  induction l with
  | nil => intro _ hm; cases hm
  | cons kv tl ih =>
    intro hn hm
    obtain ⟨k, w⟩ := kv
    rw [List.map_cons, List.nodup_cons] at hn
    obtain ⟨hk, hn'⟩ := hn
    rcases List.mem_cons.mp hm with heq | hmem
    · rw [Prod.mk.injEq] at heq
      obtain ⟨rfl, rfl⟩ := heq
      by_cases hw : isUndef v = true
      · have hv : v = Js.undef := (isUndef_eq_true_iff v).mp hw
        have hstrip : stripUndefinedValues ((name, v) :: tl) = stripUndefinedValues tl := by
          simp [stripUndefinedValues, hw]
        rw [hstrip]
        have hnone :
            (stripUndefinedValues tl).find? (fun kv => kv.1 == name) = none := by
          rw [List.find?_eq_none]
          intro x hx hbeq
          apply hk
          have hx' : x ∈ tl := List.mem_of_mem_filter hx
          have hx1 : x.1 = name := by simpa using hbeq
          exact List.mem_map.mpr ⟨x, hx', hx1⟩
        simp [getField, hnone, hv]
      · have hw' : isUndef v = false := Bool.eq_false_iff.mpr hw
        have hstrip : stripUndefinedValues ((name, v) :: tl) =
            (name, v) :: stripUndefinedValues tl := by
          simp [stripUndefinedValues, hw']
        rw [hstrip]
        simp [getField]
    · have hne : k ≠ name := by
        intro h
        apply hk
        rw [h]
        exact List.mem_map.mpr ⟨(name, v), hmem, rfl⟩
      by_cases hw : isUndef w = true
      · have hstrip : stripUndefinedValues ((k, w) :: tl) = stripUndefinedValues tl := by
          simp [stripUndefinedValues, hw]
        rw [hstrip]
        exact ih hn' hmem
      · have hw' : isUndef w = false := Bool.eq_false_iff.mpr hw
        have hstrip : stripUndefinedValues ((k, w) :: tl) =
            (k, w) :: stripUndefinedValues tl := by
          simp [stripUndefinedValues, hw']
        rw [hstrip]
        have hskip : ((k, w) :: stripUndefinedValues tl).find? (fun kv => kv.1 == name) =
            (stripUndefinedValues tl).find? (fun kv => kv.1 == name) := by
          apply List.find?_cons_of_neg
          simp [hne]
        have hrec := ih hn' hmem
        simp only [getField] at hrec ⊢
        rw [hskip]
        exact hrec

/-- Auxiliary: element-wise mapping with an idempotent function is
idempotent. -/
theorem jsMapElems_idem (f : Js → Js) (hf : ∀ z, f (f z) = f z) (a : Js) :
    jsMapElems f (jsMapElems f a) = jsMapElems f a := by
  cases a <;> simp [jsMapElems, List.map_map, Function.comp, hf]

/-- Auxiliary: each emitted field initialiser is idempotent, given that
the nested sanitizers are idempotent and preserve definedness. -/
theorem accessorValue_idem (san : String → Js → Js)
    (hsan : ∀ u z, san u (san u z) = san u z)
    (hne : ∀ u z, isUndef z = false → isUndef (san u z) = false)
    (p : SProp) (a : Js) :
    accessorValue san p (accessorValue san p a) = accessorValue san p a := by
  cases hnst : p.nested with
  | none => simp [accessorValue, hnst]
  | some u =>
    by_cases harr : p.isArray = true
    · by_cases hreq : p.required = true
      · simp only [accessorValue, hnst, harr, hreq, if_true]
        exact jsMapElems_idem (san u) (hsan u) a
      · have hreq' : p.required = false := Bool.eq_false_iff.mpr hreq
        by_cases ha : isUndef a = true
        · have hv : a = Js.undef := (isUndef_eq_true_iff a).mp ha
          subst hv
          simp [accessorValue, hnst, harr, hreq', isUndef, jsMapElems]
        · have ha' : isUndef a = false := Bool.eq_false_iff.mpr ha
          simp only [accessorValue, hnst, harr, hreq', Bool.false_eq_true,
            if_false, if_true, ha']
          cases a <;>
            simp_all [jsMapElems, isUndef, List.map_map, Function.comp, hsan u]
    · have harr' : p.isArray = false := Bool.eq_false_iff.mpr harr
      by_cases hreq : p.required = true
      · simp only [accessorValue, hnst, harr', hreq, Bool.false_eq_true,
          if_false, if_true]
        exact hsan u a
      · have hreq' : p.required = false := Bool.eq_false_iff.mpr hreq
        by_cases ha : isUndef a = true
        · have hv : a = Js.undef := (isUndef_eq_true_iff a).mp ha
          subst hv
          simp [accessorValue, hnst, harr', hreq', isUndef]
        · have ha' : isUndef a = false := Bool.eq_false_iff.mpr ha
          have hv : isUndef (san u a) = false := hne u a ha'
          simp [accessorValue, hnst, harr', hreq', ha', hv, hsan u]

/-- C8: the generated per-type sanitizer is idempotent: applying it
twice to any value yields the same result as applying it once, for
every schema whose declared property names are distinct within each
type and at every recursion depth. -/
theorem C8_sanitize_idempotent (svc : List (String × List SProp))
    (hn : ∀ e ∈ svc, (e.2.map SProp.name).Nodup) :
    ∀ fuel t x,
      sanitizeF svc fuel t (sanitizeF svc fuel t x) = sanitizeF svc fuel t x := by
  have hn' : ∀ u, ((sortProps (schemaProps svc u)).map SProp.name).Nodup := by
    intro u
    have hperm : ((sortProps (schemaProps svc u)).map SProp.name).Perm
        ((schemaProps svc u).map SProp.name) :=
      (List.perm_insertionSort propLe (schemaProps svc u)).map SProp.name
    rw [hperm.nodup_iff]
    unfold schemaProps
    cases hfind : svc.find? (fun e => e.1 == u) with
    | none => simp
    | some e => exact hn e (List.mem_of_find?_eq_some hfind)
  intro fuel
  induction fuel with
  | zero => intro t x; simp only [sanitizeF]
  | succ n ih =>
    intro t x
    have hx : sanitizeF svc (n + 1) t x = Js.obj (stripUndefinedValues
        ((sortProps (schemaProps svc t)).map
          (fun p =>
            (p.name, accessorValue (fun u z => sanitizeF svc n u z) p
              (getField x p.name))))) := by
      rw [sanitizeF]
    have hy : sanitizeF svc (n + 1) t (sanitizeF svc (n + 1) t x) =
        Js.obj (stripUndefinedValues
        ((sortProps (schemaProps svc t)).map
          (fun p =>
            (p.name, accessorValue (fun u z => sanitizeF svc n u z) p
              (getField (sanitizeF svc (n + 1) t x) p.name))))) := by
      rw [sanitizeF]
    rw [hy, hx]
    apply congrArg
    apply congrArg
    apply List.map_congr_left
    intro p hp
    have hget : getField (Js.obj (stripUndefinedValues
        ((sortProps (schemaProps svc t)).map
          (fun q =>
            (q.name, accessorValue (fun u z => sanitizeF svc n u z) q
              (getField x q.name)))))) p.name =
        accessorValue (fun u z => sanitizeF svc n u z) p (getField x p.name) := by
      apply getField_obj_strip
      · rw [List.map_map]
        exact hn' t
      · exact List.mem_map_of_mem _ hp
    rw [hget]
    rw [accessorValue_idem (fun u z => sanitizeF svc n u z)
      (fun u z => ih u z)
      (fun u z hz => sanitizeF_not_undef svc n u z hz)
      p (getField x p.name)]

/-- C8 witness: the widget schema sanitizer applied twice to a value
carrying undeclared fields equals one application. -/
theorem C8_sanitize_idempotent_witness :
    sanitizeF widgetSchema 2 "w" (sanitizeF widgetSchema 2 "w" widgetInput) =
      sanitizeF widgetSchema 2 "w" widgetInput := by
  apply C8_sanitize_idempotent widgetSchema ?_ 2 "w" widgetInput
  intro e he
  fin_cases he <;> decide

/-- C9: for a string member with a string-max-length rule of bound N,
the generated member checks yield exactly one STRING_MAX_LENGTH error
on a string value longer than N, and none on a string value of length
exactly N. -/
theorem C9_string_max_length_exact (required : Bool) (name : String) (n : Nat)
    (s : String) :
    (n < s.length →
      (validateStringMaxMember required name n (Js.str s)).filter
          (fun e => e.code == "STRING_MAX_LENGTH") =
        [⟨"STRING_MAX_LENGTH", "max length exceeded", name⟩]) ∧
    (s.length = n →
      (validateStringMaxMember required name n (Js.str s)).filter
          (fun e => e.code == "STRING_MAX_LENGTH") = []) := by
  constructor
  · intro h
    simp [validateStringMaxMember, requiredClause, stringTypeClause,
      stringMaxLengthClause, isUndef, jsTypeof, asString, h]
  · intro h
    simp [validateStringMaxMember, requiredClause, stringTypeClause,
      stringMaxLengthClause, isUndef, jsTypeof, asString, h]

/-- C9 witness: bound 2 on the three-character string "abc" yields the
single STRING_MAX_LENGTH error; bound 3 yields none. -/
theorem C9_string_max_length_witness :
    (validateStringMaxMember true "p" 2 (Js.str "abc")).filter
        (fun e => e.code == "STRING_MAX_LENGTH") =
      [⟨"STRING_MAX_LENGTH", "max length exceeded", "p"⟩] ∧
    (validateStringMaxMember true "p" 3 (Js.str "abc")).filter
        (fun e => e.code == "STRING_MAX_LENGTH") = [] := by
  refine ⟨(C9_string_max_length_exact true "p" 2 "abc").1 ?_,
    (C9_string_max_length_exact true "p" 3 "abc").2 ?_⟩ <;> decide

end TsValidators
